import Mathlib

/-!
Shallow embedding of the expense-tracker repository's draft / submission /
approval core and its credential validator:

* `DraftSimple` models `DraftManager` of `dev_app_simple.py`
  (`load_draft`, `save_draft`, `_validate_expense`, `_find_draft_row`).
* `AppSimple` models `ExpenseApp` of `dev_app_simple.py`
  (`_submit_expenses_for_approval`, `update_expense_status`).
* `DevApp` models `ExpenseApp.save_draft_expenses` of `dev_app.py`.
* `AppMain` models `ExpenseApp.update_expense_status` of `app.py`
  (row-number based) and the call made by `show_admin_expense_table`.
* `Auth` models `AuthManager` of `auth_manager.py`.

Modelling conventions: the remote spreadsheet is a list of typed rows in the
fixed column order of the sheets; store reads and writes always succeed
(network failures are outside the claims settled here); timestamps are opaque
strings except in `Auth`, where `time.time()` values are naturals in seconds;
Python dicts of line items are records of optional JSON values, so that the
presence checks of the source are expressible; `json.loads` of the draft blob
is abstracted by its outcome (`Blob.malformed` for a decode error,
`Blob.parsed` for a decode to a list of objects).
-/

/-- Scalar JSON values appearing in an expense dict field.  JSON numbers are
modelled as rationals (covering Python ints and the floats the app stores);
nested arrays/objects never occur in the modelled code paths. -/
inductive JVal where
  | jstr : String → JVal
  | jnum : Rat → JVal
  deriving DecidableEq

/-- True on a non-empty list of decimal digit characters. -/
def digitsOnly (l : List Char) : Bool :=
  !l.isEmpty && l.all Char.isDigit

/-- Numeric value of a list of decimal digits. -/
def digitsVal (l : List Char) : Nat :=
  l.foldl (fun n c => n * 10 + (c.toNat - 48)) 0

/-- Split a character list at every occurrence of `c` (like `str.split(c)` /
`String.splitOn`, reimplemented structurally). -/
def splitOnChar (c : Char) : List Char → List (List Char)
  | [] => [[]]
  | x :: xs =>
    let r := splitOnChar c xs
    if x = c then [] :: r
    else
      match r with
      | [] => [[x]]
      | y :: ys => (x :: y) :: ys

/-- Gregorian leap-year test, as used by `datetime`. -/
def isLeapYear (y : Nat) : Bool :=
  (y % 4 == 0 && y % 100 != 0) || (y % 400 == 0)

/-- Number of days of month `m` in year `y`. -/
def daysInMonth (y m : Nat) : Nat :=
  if m = 2 then (if isLeapYear y then 29 else 28)
  else if m = 4 ∨ m = 6 ∨ m = 9 ∨ m = 11 then 30
  else 31

/-- Models a successful `datetime.strptime(s, "%Y-%m-%d")`: a four-digit
year, a one/two-digit month in 1..12 and a one/two-digit day valid for that
month, separated by dashes. -/
def isDateYMD (s : String) : Bool :=
  match splitOnChar '-' s.toList with
  | [ys, ms, ds] =>
    digitsOnly ys && ys.length == 4 &&
    digitsOnly ms && (ms.length == 1 || ms.length == 2) &&
    digitsOnly ds && (ds.length == 1 || ds.length == 2) &&
    (let y := digitsVal ys
     let m := digitsVal ms
     let d := digitsVal ds
     decide (1 ≤ m) && decide (m ≤ 12) && decide (1 ≤ d) &&
       decide (d ≤ daysInMonth y m))
  | _ => false

/-- Value of an unsigned decimal literal (`digits` or `digits.digits`),
modelling the fragment of Python `float()` the app can meet; exponent and
special-value literals are not modelled. -/
def parseUnsignedDec? (l : List Char) : Option Rat :=
  match splitOnChar '.' l with
  | [ip] => if digitsOnly ip then some ((digitsVal ip : Nat) : Rat) else none
  | [ip, fp] =>
    if digitsOnly ip && digitsOnly fp then
      some ((digitsVal ip : Rat) + (digitsVal fp : Rat) / ((10 : Rat) ^ fp.length))
    else none
  | _ => none

/-- Models Python `float(s)` on a string: optional sign then a decimal
literal. -/
def parseFloat? (s : String) : Option Rat :=
  match s.toList with
  | '-' :: rest => (parseUnsignedDec? rest).map (fun q => -q)
  | '+' :: rest => parseUnsignedDec? rest
  | l => parseUnsignedDec? l

/-- Models Python `int(s)` succeeding on a string: optional sign then
digits. -/
def intTextOk (s : String) : Bool :=
  match s.toList with
  | '-' :: rest => digitsOnly rest
  | '+' :: rest => digitsOnly rest
  | l => digitsOnly l

/-- `float(v)` succeeds: always on a JSON number, on a string when it is a
decimal literal. -/
def floatParses : JVal → Bool
  | .jnum _ => true
  | .jstr s => (parseFloat? s).isSome

/-- `int(v)` succeeds: always on a JSON number (`int()` truncates floats), on
a string when it is an integer literal. -/
def intParses : JVal → Bool
  | .jnum _ => true
  | .jstr s => intTextOk s

/-- `datetime.strptime(v, "%Y-%m-%d")` succeeds: only on a string of that
shape (a non-string raises `TypeError`). -/
def dateParses : JVal → Bool
  | .jstr s => isDateYMD s
  | .jnum _ => false

/-- The value is a number (directly or after `float()`) and non-negative. -/
def jvalNonneg : JVal → Bool
  | .jnum q => decide (0 ≤ q)
  | .jstr s =>
    match parseFloat? s with
    | some q => decide (0 ≤ q)
    | none => false

/-- Cell content written for a JSON value (`str(v)` for numbers); integral
numbers print like Python ints, which is the only numeric case the proofs
evaluate. -/
def jvalStr : JVal → String
  | .jstr s => s
  | .jnum q => if q.den == 1 then toString q.num else toString q

/-- An expense dict of a draft: each of the six keys the app ever reads,
`Option` capturing whether the key is present. -/
structure RawExpense where
  date : Option JVal
  category : Option JVal
  vendor : Option JVal
  description : Option JVal
  amount : Option JVal
  id : Option JVal
  deriving DecidableEq

/-- The presence check of `load_draft` / `_validate_expense`:
`all(field in expense for field in required_fields)`. -/
def hasRequiredFields (e : RawExpense) : Bool :=
  e.date.isSome && e.category.isSome && e.vendor.isSome &&
  e.description.isSome && e.amount.isSome && e.id.isSome

/-- Outcome of `json.loads` on the `expenses` cell of a draft row:
either a decode error or a list of objects.  (Other JSON shapes also end in
the catch-all `except` of `load_draft` and are not needed by the claims.) -/
inductive Blob where
  | malformed : Blob
  | parsed : List RawExpense → Blob
  deriving DecidableEq

/-- Models `str.upper()`. -/
def upperStr (s : String) : String := ⟨s.toList.map Char.toUpper⟩

/-- Models `str.strip()`. -/
def trimStr (s : String) : String :=
  ⟨((s.toList.dropWhile Char.isWhitespace).reverse.dropWhile Char.isWhitespace).reverse⟩

namespace DraftSimple

/-- A data row of the drafts sheet of `dev_app_simple.py`, columns
`teacher_id, month, year, expenses, status, created_date, last_modified,
comments` (A..H). -/
structure DraftRow where
  teacher_id : String
  month : String
  year : String
  expenses : Blob
  status : String
  created_date : String
  last_modified : String
  comments : String
  deriving DecidableEq

/-- What `load_draft` hands back to the caller. -/
structure LoadedDraft where
  expenses : List RawExpense
  status : String
  created_date : Option String
  last_modified : Option String
  deriving DecidableEq

/-- The `{"expenses": [], "status": "new"}` result of `load_draft`. -/
def freshDraft : LoadedDraft := ⟨[], "new", none, none⟩

/-- The pandas filter of `load_draft`: first data row whose stripped month,
year and teacher_id equal the stripped arguments (`draft.iloc[0]`). -/
def findLoadRow (rows : List DraftRow) (month year teacher_id : String) :
    Option DraftRow :=
  rows.find? (fun r =>
    trimStr r.month == trimStr month && trimStr r.year == trimStr year &&
      trimStr r.teacher_id == trimStr teacher_id)

/-- `DraftManager._validate_expense`: all six keys present, then
`strptime(date)`, `float(amount)`, `int(id)` must succeed (the three `str()`
coercions never fail). -/
def validate_expense (e : RawExpense) : Bool :=
  match e.date, e.category, e.vendor, e.description, e.amount, e.id with
  | some d, some _, some _, some _, some a, some i =>
    dateParses d && floatParses a && intParses i
  | _, _, _, _, _, _ => false

/-- `DraftManager.load_draft`: no matching row or a decode error or a missing
required field yields the fresh `new` draft; otherwise the decoded items and
the stored status and timestamps are returned.  Every error path is a caught
exception in the source, so the function is total and never propagates. -/
def load_draft (rows : List DraftRow) (month year teacher_id : String) :
    LoadedDraft :=
  match findLoadRow rows month year teacher_id with
  | none => freshDraft
  | some r =>
    match r.expenses with
    | Blob.malformed => freshDraft
    | Blob.parsed es =>
      if es.all hasRequiredFields then
        ⟨es, r.status, some r.created_date, some r.last_modified⟩
      else freshDraft

/-- The update path of `save_draft`: `_find_draft_row` locates the first row
whose first three cells equal the key (exact string equality), and the seven
per-cell updates rewrite columns A..G of that row with the new draft data
(`created_date` and `last_modified` both set to the present save time);
column H (comments) is not written. -/
def saveUpdate (month year teacher_id : String) (es : List RawExpense)
    (status now : String) : List DraftRow → Option (List DraftRow)
  | [] => none
  | r :: rs =>
    if r.teacher_id = teacher_id ∧ r.month = month ∧ r.year = year then
      some (⟨teacher_id, month, year, Blob.parsed es, status, now, now,
             r.comments⟩ :: rs)
    else (saveUpdate month year teacher_id es status now rs).map (r :: ·)

/-- `DraftManager.save_draft`: every item is validated before anything is
written; on any validation failure the save returns `False` (modelled
`none`) and no write happens.  Otherwise the existing key row is overwritten
in place, or a new row (with empty comments cell) is appended.  `now` is the
`datetime.now()` string used for both `created_date` and `last_modified`. -/
def save_draft (rows : List DraftRow) (month year teacher_id : String)
    (es : List RawExpense) (status now : String) : Option (List DraftRow) :=
  if es.all validate_expense then
    match saveUpdate month year teacher_id es status now rows with
    | some rows' => some rows'
    | none =>
      some (rows ++ [⟨teacher_id, month, year, Blob.parsed es, status, now,
                      now, ""⟩])
  else none

end DraftSimple

/-- A row of the expenses ledger sheet, columns
`id, teacher_id, date, category, vendor, amount, description, status,
submitted_date, approved_by, approved_date, comments` (A..L). -/
structure LedgerRow where
  id : String
  teacher_id : String
  date : String
  category : String
  vendor : String
  amount : String
  description : String
  status : String
  submitted_date : String
  approved_by : String
  approved_date : String
  comments : String
  deriving DecidableEq

namespace AppSimple

/-- The `expense_data` list built per item by `_submit_expenses_for_approval`:
`str(id)`, the teacher id, the raw date/category/vendor/description cells,
`str(amount)`, then status `pending`, the submission timestamp and three
empty decision cells.  A missing key raises `KeyError` (modelled `none`),
which the catch-all turns into a failed submission. -/
def expenseToLedgerRow (teacher_id now : String) (e : RawExpense) :
    Option LedgerRow :=
  match e.id, e.date, e.category, e.vendor, e.amount, e.description with
  | some i, some d, some c, some v, some a, some ds =>
    some ⟨jvalStr i, teacher_id, jvalStr d, jvalStr c, jvalStr v, jvalStr a,
          jvalStr ds, "pending", now, "", "", ""⟩
  | _, _, _, _, _, _ => none

/-- The per-item append loop of `_submit_expenses_for_approval`: rows are
appended one at a time; a failure stops the loop but keeps the rows already
appended (no rollback). -/
def submitLoop (teacher_id now : String) (ledger : List LedgerRow) :
    List RawExpense → Bool × List LedgerRow
  | [] => (true, ledger)
  | e :: es =>
    match expenseToLedgerRow teacher_id now e with
    | none => (false, ledger)
    | some row => submitLoop teacher_id now (ledger ++ [row]) es

/-- Result of a submission: the returned boolean, the expenses ledger, the
drafts sheet, and whether `st.session_state.current_draft` was reset to the
fresh empty draft. -/
structure SubmitResult where
  ok : Bool
  ledger : List LedgerRow
  drafts : List DraftSimple.DraftRow
  cleared : Bool
  deriving DecidableEq

/-- `ExpenseApp._submit_expenses_for_approval`: fails on an empty item list;
otherwise appends one pending ledger row per item, then saves the draft with
status `submitted` (which re-validates the items) and clears the in-memory
draft.  A failed save leaves the already appended ledger rows in place. -/
def submit_expenses_for_approval (ledger : List LedgerRow)
    (drafts : List DraftSimple.DraftRow) (teacher_id month year : String)
    (es : List RawExpense) (now : String) : SubmitResult :=
  if es.isEmpty then ⟨false, ledger, drafts, false⟩
  else
    match submitLoop teacher_id now ledger es with
    | (false, ledger') => ⟨false, ledger', drafts, false⟩
    | (true, ledger') =>
      match DraftSimple.save_draft drafts month year teacher_id es
          "submitted" now with
      | none => ⟨false, ledger', drafts, false⟩
      | some drafts' => ⟨true, ledger', drafts', true⟩

/-- `ExpenseApp.update_expense_status` of `dev_app_simple.py`: the method
fails on an empty sheet, scans the fetched rows for the expense id and
reports `Expense not found` when absent; when the row is found, its first
write calls `self.update_sheet_cell`, a method this file's `ExpenseApp`
never defines (it exists only in `app.py` and `dev_app.py`), so an
`AttributeError` is raised, the catch-all `except` reports it and returns
`False` — no cell is ever written, whatever the entry's current status.
The arguments after the id are consumed only by the failing write. -/
def update_expense_status (values : List LedgerRow)
    (expense_id status comments approver now : String) :
    Bool × List LedgerRow :=
  if values.isEmpty then (false, values)
  else
    match values.find? (fun r => r.id == expense_id) with
    | none => (false, values)
    | some _ => (false, values)

end AppSimple

namespace DevApp

/-- A data row of the drafts sheet of `dev_app.py`, columns
`draft_id, teacher_id, month, year, expenses, status, created_date,
last_modified_date` (A..H). -/
structure DraftRow where
  draft_id : String
  teacher_id : String
  month : String
  year : String
  expenses : Blob
  status : String
  created_date : String
  last_modified_date : String
  deriving DecidableEq

/-- The update path of `save_draft_expenses`: `get_draft_expenses` and
`find_draft_row` both select the first row matching the
`(teacher_id, month, year)` key, whose eight cells are then rewritten with
the new draft data — `draft_id` and `created_date` taken from the existing
row, `last_modified_date` set to the save time. -/
def replaceDraft (teacher_id month year : String) (es : List RawExpense)
    (now : String) : List DraftRow → Option (List DraftRow)
  | [] => none
  | r :: rs =>
    if r.teacher_id = teacher_id ∧ r.month = month ∧ r.year = year then
      some (⟨r.draft_id, teacher_id, month, year, Blob.parsed es, "draft",
             r.created_date, now⟩ :: rs)
    else (replaceDraft teacher_id month year es now rs).map (r :: ·)

/-- `ExpenseApp.save_draft_expenses` of `dev_app.py`: overwrite the existing
key row in place (keeping its `draft_id` and `created_date`), or append a
fresh row with a new uuid and `created_date = now`.  No item validation is
performed in this variant. -/
def save_draft_expenses (rows : List DraftRow) (teacher_id month year : String)
    (es : List RawExpense) (newUuid now : String) : Option (List DraftRow) :=
  match replaceDraft teacher_id month year es now rows with
  | some rows' => some rows'
  | none =>
    some (rows ++ [⟨newUuid, teacher_id, month, year, Blob.parsed es, "draft",
                    now, now⟩])

end DevApp

namespace AppMain

/-- The four point updates of `update_expense_status` of `app.py` applied to
one row: cells H (status) and K (approval date) always, J (approver) and
L (comments) only when the argument is non-empty. -/
def applyDecision (r : LedgerRow) (status comments approver now : String) :
    LedgerRow :=
  { r with
    status := status
    approved_by := if approver = "" then r.approved_by else approver
    approved_date := now
    comments := if comments = "" then r.comments else comments }

/-- `ExpenseApp.update_expense_status` of `app.py`: writes the decision cells
of exactly the sheet row number it is given, with no lookup of the expense
id and no check of the row's current status.  `values` is the fetched `A:L`
range, index `j` holding sheet row `j + 1`; a row number beyond the fetched
range is outside the model and leaves the table unchanged. -/
def update_expense_status (values : List LedgerRow) (row_number : Nat)
    (status comments approver now : String) : List LedgerRow :=
  match values[row_number - 1]? with
  | some r => values.set (row_number - 1) (applyDecision r status comments approver now)
  | none => values

/-- The call made by `show_admin_expense_table` of `app.py` when the admin
approves or rejects the entry with integer id `k`:
`update_expense_status(int(row['id']) + 1, ...)`. -/
def adminDecide (values : List LedgerRow) (k : Nat)
    (decision comments approver now : String) : List LedgerRow :=
  update_expense_status values (k + 1) decision comments approver now

end AppMain

namespace Auth

/-- A data row of the users sheet, columns
`teacher_id, name, pin, role, active` (A..E). -/
structure UserRecord where
  teacher_id : String
  name : String
  pin : String
  role : String
  active : String
  deriving DecidableEq

/-- The dict `get_user_data` builds from a matching row:
`is_active = row[4].upper() == 'TRUE'`. -/
structure UserData where
  teacher_id : String
  name : String
  pin : String
  role : String
  is_active : Bool
  deriving DecidableEq

/-- `AuthManager.get_user_data`: first row whose first cell equals the
teacher id, converted to the user dict; `none` when absent. -/
def get_user_data (users : List UserRecord) (teacher_id : String) :
    Option UserData :=
  (users.find? (fun r => r.teacher_id == teacher_id)).map
    (fun r => ⟨r.teacher_id, r.name, r.pin, r.role, upperStr r.active == "TRUE"⟩)

/-- `AuthManager.validate_teacher_id`: non-empty, at least four characters,
alphanumeric. -/
def validate_teacher_id (teacher_id : String) : Bool :=
  if teacher_id = "" then false
  else decide (4 ≤ teacher_id.length) && teacher_id.toList.all Char.isAlphanum

/-- `AuthManager.validate_pin`: non-empty, exactly four digit characters. -/
def validate_pin (pin : String) : Bool :=
  if pin = "" then false
  else pin.length == 4 && pin.toList.all Char.isDigit

/-- `st.session_state.login_attempts`: per-id lists of failure timestamps
(seconds), absent ids mapped to `none`. -/
abbrev AttemptMap := String → Option (List Nat)

/-- The state before any attempt is recorded. -/
def emptyAttempts : AttemptMap := fun _ => none

/-- Point update of the attempts dict. -/
def setAtt (s : AttemptMap) (teacher_id : String) (l : List Nat) : AttemptMap :=
  fun x => if x = teacher_id then some l else s x

/-- `AuthManager.check_rate_limit` (`max_attempts = 3`,
`lockout_duration = 300`): with at least three recorded attempts whose
oldest is younger than the lockout interval the call is refused; an expired
window is cleared; every other state passes. -/
def check_rate_limit (t : Nat) (teacher_id : String) (s : AttemptMap) :
    Bool × AttemptMap :=
  match s teacher_id with
  | none => (true, s)
  | some attempts =>
    if 3 ≤ attempts.length then
      match attempts with
      | [] => (true, s)
      | oldest :: _ =>
        if t - oldest < 300 then (false, s) else (true, setAtt s teacher_id [])
    else (true, s)

/-- `AuthManager.record_login_attempt`: append the present time to the id's
list, creating it when absent. -/
def record_login_attempt (t : Nat) (teacher_id : String) (s : AttemptMap) :
    AttemptMap :=
  setAtt s teacher_id (((s teacher_id).getD []) ++ [t])

/-- The lockout message of `authenticate`, with the remaining seconds
computed from the oldest recorded attempt. -/
def lockedMsg (remaining : Nat) : String :=
  "Account temporarily locked. Try again in " ++ toString remaining ++ " seconds"

/-- `AuthManager.authenticate`, returning the `(bool, message)` pair, the
attempts state after the call, and whether the user store was read
(`get_user_data` reached).  Format failures and rate-limit refusals return
before any store access; an unknown id and a wrong pin record a failed
attempt; an inactive account and a success record nothing.  The session
fields set on success are outside the attempts state modelled here. -/
def authenticate (users : List UserRecord) (s : AttemptMap)
    (teacher_id pin : String) (t : Nat) : (Bool × String) × AttemptMap × Bool :=
  if validate_teacher_id teacher_id = false then
    ((false, "Invalid teacher ID format"), s, false)
  else if validate_pin pin = false then
    ((false, "Invalid PIN format"), s, false)
  else
    match check_rate_limit t teacher_id s with
    | (false, _) =>
      ((false, lockedMsg (300 - (t - (((s teacher_id).getD []).headD 0)))),
       s, false)
    | (true, s') =>
      match get_user_data users teacher_id with
      | none =>
        ((false, "Invalid credentials"), record_login_attempt t teacher_id s', true)
      | some u =>
        if u.is_active = false then ((false, "Account is inactive"), s', true)
        else if pin ≠ u.pin then
          ((false, "Invalid credentials"), record_login_attempt t teacher_id s', true)
        else ((true, "Login successful"), s', true)

/-- The credential situations that make `authenticate` record a failed
attempt: the id is unknown, or the record is active and the pin wrong.
(Inactive accounts and format failures record nothing.) -/
def wrongCreds (users : List UserRecord) (teacher_id pin : String) : Bool :=
  match get_user_data users teacher_id with
  | none => true
  | some u => u.is_active && pin != u.pin

/-- A sequence of `authenticate` calls at the given times, threading the
attempts state; returns the list of `(bool, message)` results and the final
state. -/
def authRun (users : List UserRecord) (teacher_id pin : String) :
    AttemptMap → List Nat → List (Bool × String) × AttemptMap
  | s, [] => ([], s)
  | s, t :: ts =>
    let r := authenticate users s teacher_id pin t
    let rest := authRun users teacher_id pin r.2.1 ts
    (r.1 :: rest.1, rest.2)

end Auth

/-- Validator transcribed from the specification's words for `load`
("each containing every required field with correct types: date parseable,
amount parseable as a non-negative number, id parseable as integer"), kept
separate from the code's checks so the two can be compared. -/
def specLineItemValid (e : RawExpense) : Bool :=
  match e.date, e.category, e.vendor, e.description, e.amount, e.id with
  | some d, some _, some _, some _, some a, some i =>
    dateParses d && floatParses a && jvalNonneg a && intParses i
  | _, _, _, _, _, _ => false

/-- A well-formed line item (draft-local id 1) used as concrete input. -/
def itemA : RawExpense :=
  ⟨some (.jstr "2024-03-01"), some (.jstr "Travel"), some (.jstr "Uber"),
   some (.jstr "taxi"), some (.jnum 12), some (.jnum 1)⟩

/-- A second user's well-formed line item, also with draft-local id 1. -/
def itemB : RawExpense :=
  ⟨some (.jstr "2024-03-02"), some (.jstr "Stationary"), some (.jstr "Tesco"),
   some (.jstr "paper"), some (.jnum 30), some (.jnum 1)⟩

/-- A line item with every required field present but a negative amount. -/
def itemNeg : RawExpense :=
  ⟨some (.jstr "2024-03-01"), some (.jstr "Travel"), some (.jstr "Uber"),
   some (.jstr "taxi"), some (.jnum (-5)), some (.jnum 1)⟩

/-- A line item missing its description key. -/
def itemMissing : RawExpense :=
  ⟨some (.jstr "2024-03-01"), some (.jstr "Travel"), some (.jstr "Uber"),
   none, some (.jnum 12), some (.jnum 1)⟩

/-- First submission: user `T100` submits a one-item March/2024 draft into an
empty ledger. -/
def c1step1 : AppSimple.SubmitResult :=
  AppSimple.submit_expenses_for_approval [] [] "T100" "March" "2024" [itemA]
    "2024-03-05 09:00:00"

/-- Second submission: user `T200` submits their own one-item March/2024
draft into the resulting state. -/
def c1step2 : AppSimple.SubmitResult :=
  AppSimple.submit_expenses_for_approval c1step1.ledger c1step1.drafts "T200"
    "March" "2024" [itemB] "2024-03-05 10:00:00"

/-- A ledger entry that has already been decided (`status = approved`). -/
def c2row : LedgerRow :=
  ⟨"7", "T100", "2024-03-01", "Travel", "Uber", "12", "taxi", "approved",
   "2024-03-05 09:00:00", "A1", "2024-03-06 10:00:00", "ok"⟩

/-- A ledger entry with the same id that is still `pending`. -/
def c2pendingRow : LedgerRow :=
  ⟨"7", "T100", "2024-03-01", "Travel", "Uber", "12", "taxi", "pending",
   "2024-03-05 09:00:00", "", "", ""⟩

/-- Same submission as `c1step1`, named for the success-shape instance. -/
def c3res : AppSimple.SubmitResult :=
  AppSimple.submit_expenses_for_approval [] [] "T100" "March" "2024" [itemA]
    "2024-03-05 09:00:00"

/-- A stored draft row whose blob decodes to one item with a negative
amount (every required field present). -/
def c4row : DraftSimple.DraftRow :=
  ⟨"T100", "March", "2024", Blob.parsed [itemNeg], "draft",
   "2024-03-01 10:00:00", "2024-03-01 10:00:00", ""⟩

/-- A draft row as written by a first save at `2024-03-01 10:00:00`. -/
def c6row1 : DraftSimple.DraftRow :=
  ⟨"T100", "March", "2024", Blob.parsed [itemA], "draft",
   "2024-03-01 10:00:00", "2024-03-01 10:00:00", ""⟩

/-- A users sheet holding one active user whose pin is `9999`. -/
def c7users : List Auth.UserRecord :=
  [⟨"T100", "Alice", "9999", "member", "TRUE"⟩]

/-- Attempts state reached after the first failed call of the lockout
scenario. -/
def c7s1 : Auth.AttemptMap :=
  (Auth.authenticate c7users Auth.emptyAttempts "T100" "1234" 0).2.1

/-- Attempts state after the second failed call. -/
def c7s2 : Auth.AttemptMap :=
  (Auth.authenticate c7users c7s1 "T100" "1234" 10).2.1

/-- Attempts state after the third failed call. -/
def c7s3 : Auth.AttemptMap :=
  (Auth.authenticate c7users c7s2 "T100" "1234" 20).2.1

/-- A users sheet holding one inactive user (`active = FALSE`). -/
def inactiveUsers : List Auth.UserRecord :=
  [⟨"T100", "Bob", "9999", "member", "FALSE"⟩]

/-- The user dict `get_user_data` builds for the inactive user. -/
def inactiveUser : Auth.UserData := ⟨"T100", "Bob", "9999", "member", false⟩

/-- Attempts state holding three stale failures (recorded at second 0) for
`T100`. -/
def c9s0 : Auth.AttemptMap := Auth.setAtt Auth.emptyAttempts "T100" [0, 0, 0]

/-- The header row of the expenses ledger sheet, at sheet row 1. -/
def hdrRow : LedgerRow :=
  ⟨"id", "teacher_id", "date", "category", "vendor", "amount", "description",
   "status", "submitted_date", "approved_by", "approved_date", "comments"⟩

/-- A pending entry with id 2, stored at sheet row 2. -/
def c10rowA : LedgerRow :=
  ⟨"2", "T200", "2024-03-02", "Stationary", "Tesco", "30", "paper", "pending",
   "2024-03-05 10:00:00", "", "", ""⟩

/-- A pending entry with id 1, stored at sheet row 3 (not at row 1 + 1). -/
def c10rowB : LedgerRow :=
  ⟨"1", "T100", "2024-03-01", "Travel", "Uber", "12", "taxi", "pending",
   "2024-03-05 09:00:00", "", "", ""⟩

/-- A fetched `A:L` range in which entry ids do not coincide with data-row
positions: id 1 lives at sheet row 3. -/
def c10values : List LedgerRow := [hdrRow, c10rowA, c10rowB]

/-- A stored draft row whose `expenses` blob is invalid JSON. -/
def c4malRow : DraftSimple.DraftRow :=
  ⟨"T100", "April", "2024", Blob.malformed, "draft", "cd", "lm", ""⟩

/-- The drafts sheet after the second save of the `c6row1` key. -/
def c6outRows : List DraftSimple.DraftRow :=
  [⟨"T100", "March", "2024", Blob.parsed [itemA], "draft",
    "2024-03-02 11:00:00", "2024-03-02 11:00:00", ""⟩]

/-- C1: the claim says every ledger entry produced by a submission gets a
globally unique, monotonically assigned id.  In
`_submit_expenses_for_approval` of `dev_app_simple.py` the ledger id cell is
`str(expense['id'])` — the draft-local item id — so two users' successful
one-item submissions (each item carrying local id 1) leave the ledger with
two rows whose id is `"1"`: the id is neither unique nor greater than every
existing id. -/
theorem submitSimple_assigns_duplicate_ids :
    c1step1.ok = true ∧ c1step2.ok = true ∧
    c1step2.ledger.map LedgerRow.id = ["1", "1"] := by decide

/-- C2: the claim says a decision on an entry whose status is not `pending`
fails with `AlreadyDecided` and leaves the entry unchanged.  Neither cited
path implements that check.  In `app.py` the row-number update silently
overwrites the decision cells of the already-`approved` entry 7 (its
approval date changes), so the second identical decision succeeds instead
of failing.  In `dev_app_simple.py` the method always returns `False` with
no write — even on a `pending` entry — because its class lacks the
`update_sheet_cell` method it calls, so the failure is an `AttributeError`
swallowed by the catch-all, not an `AlreadyDecided` rejection. -/
theorem update_status_overwrites_decided_entry :
    AppMain.update_expense_status [hdrRow, c2row] 2 "approved" "ok" "A1"
        "2024-03-07 11:00:00" =
      [hdrRow, { c2row with approved_date := "2024-03-07 11:00:00" }] ∧
    ({ c2row with approved_date := "2024-03-07 11:00:00" } : LedgerRow) ≠ c2row ∧
    AppSimple.update_expense_status [c2row] "7" "approved" "ok" "A1"
        "2024-03-07 11:00:00" = (false, [c2row]) ∧
    AppSimple.update_expense_status [c2pendingRow] "7" "approved" "ok" "A1"
        "2024-03-07 11:00:00" = (false, [c2pendingRow]) := by
  refine ⟨by decide, by decide, by decide, by decide⟩

/-- C8: the claim says an unknown id and an inactive account produce the
same `InvalidCredentials` failure.  `authenticate` returns the message
`Invalid credentials` for the unknown id `T999` but the distinct message
`Account is inactive` for the inactive account `T100`. -/
theorem inactive_and_unknown_messages_differ :
    (Auth.authenticate inactiveUsers Auth.emptyAttempts "T999" "1234" 0).1 =
      (false, "Invalid credentials") ∧
    (Auth.authenticate inactiveUsers Auth.emptyAttempts "T100" "1234" 0).1 =
      (false, "Account is inactive") ∧
    ((false, "Invalid credentials") : Bool × String) ≠
      (false, "Account is inactive") := by
  refine ⟨by decide, by decide, by decide⟩

/-- C9 counterexample: the claim says a call failing on an inactive account
leaves the per-id failed-attempt state unchanged.  With three stale recorded
failures (older than the lockout interval) the rate-limit check run before
the lookup clears them, so the inactive-account call returns
`Account is inactive` yet changes the attempts entry from `[0, 0, 0]` to
`[]`. -/
theorem inactive_call_clears_stale_attempts :
    (Auth.authenticate inactiveUsers c9s0 "T100" "1234" 400).1 =
      (false, "Account is inactive") ∧
    (Auth.authenticate inactiveUsers c9s0 "T100" "1234" 400).2.1 "T100" =
      some [] ∧
    c9s0 "T100" = some [0, 0, 0] := by
  refine ⟨by decide, by decide, by decide⟩

/-- C4 counterexample: the claim says `load` validates the types of every
field (amount parseable as a non-negative number) and returns a fresh `new`
draft on any validation failure.  `load_draft` checks only key presence: on
a stored row whose single item has amount `-5` — invalid under the
specification's validator — it returns that item instead of the fresh
draft. -/
theorem load_draft_accepts_invalid_typed_item :
    specLineItemValid itemNeg = false ∧
    DraftSimple.load_draft [c4row] "March" "2024" "T100" ≠
      DraftSimple.freshDraft ∧
    (DraftSimple.load_draft [c4row] "March" "2024" "T100").expenses =
      [itemNeg] := by
  refine ⟨by decide, by decide, by decide⟩

/-- C5 counterexample: the claim says an item with negative `amount` makes
`save_draft` reject the whole batch with no write.  `_validate_expense`
only requires `float(amount)` to succeed, so the item with amount `-5`
passes validation and the save writes a new draft row. -/
theorem save_draft_writes_negative_amount :
    jvalNonneg (JVal.jnum (-5)) = false ∧
    DraftSimple.save_draft [] "March" "2024" "T100" [itemNeg] "draft"
        "2024-03-01 10:00:00" =
      some [⟨"T100", "March", "2024", Blob.parsed [itemNeg], "draft",
             "2024-03-01 10:00:00", "2024-03-01 10:00:00", ""⟩] := by
  refine ⟨by decide, by decide⟩

/-- C6 counterexample: the claim says `createdAt` keeps the value written by
the first save.  Re-saving the key saved at `2024-03-01 10:00:00` rewrites
all seven cells with fresh draft data, so the stored `created_date` becomes
the second save's time. -/
theorem save_draft_overwrites_created_date :
    DraftSimple.save_draft [c6row1] "March" "2024" "T100" [itemA] "draft"
        "2024-03-02 11:00:00" =
      some [⟨"T100", "March", "2024", Blob.parsed [itemA], "draft",
             "2024-03-02 11:00:00", "2024-03-02 11:00:00", ""⟩] ∧
    c6row1.created_date = "2024-03-01 10:00:00" ∧
    ("2024-03-02 11:00:00" : String) ≠ "2024-03-01 10:00:00" := by
  refine ⟨by decide, by decide, by decide⟩

/-- If two lists are pointwise related, every member of the right list has a
related partner in the left one. -/
theorem forallTwo_exists_left {α β : Type} {R : α → β → Prop} :
    ∀ {l₁ : List α} {l₂ : List β}, List.Forall₂ R l₁ l₂ →
      ∀ b ∈ l₂, ∃ a, R a b := by
  intro l₁ l₂ h
  induction h with
  | nil => intro b hb; cases hb
  | cons hR _ ih =>
    intro b hb
    rcases List.mem_cons.mp hb with rfl | hb'
    · exact ⟨_, hR⟩
    · exact ih b hb'

/-- Every ledger row built by the submission loop is pending, carries the
submission timestamp, and has empty decision cells. -/
theorem expenseToLedgerRow_fields (teacher_id now : String) (e : RawExpense)
    (r : LedgerRow)
    (h : AppSimple.expenseToLedgerRow teacher_id now e = some r) :
    r.status = "pending" ∧ r.submitted_date = now ∧ r.approved_by = "" ∧
      r.approved_date = "" ∧ r.comments = "" := by
  unfold AppSimple.expenseToLedgerRow at h
  split at h
  · cases h
    exact ⟨rfl, rfl, rfl, rfl, rfl⟩
  · cases h

/-- A submission loop that reports success appended exactly one converted
row per item, in order. -/
theorem submitLoop_ok (teacher_id now : String) :
    ∀ (es : List RawExpense) (L L' : List LedgerRow),
      AppSimple.submitLoop teacher_id now L es = (true, L') →
      ∃ rows', L' = L ++ rows' ∧
        List.Forall₂
          (fun e r => AppSimple.expenseToLedgerRow teacher_id now e = some r)
          es rows' := by
  intro es
  induction es with
  | nil =>
    intro L L' h
    unfold AppSimple.submitLoop at h
    simp at h
    exact ⟨[], by simp [h], List.Forall₂.nil⟩
  | cons e es ih =>
    intro L L' h
    unfold AppSimple.submitLoop at h
    cases hr : AppSimple.expenseToLedgerRow teacher_id now e with
    | none => rw [hr] at h; simp at h
    | some row =>
      rw [hr] at h
      obtain ⟨rows', hL, hF⟩ := ih (L ++ [row]) L' h
      refine ⟨row :: rows', ?_, List.Forall₂.cons hr hF⟩
      rw [hL, List.append_assoc, List.singleton_append]

/-- The row rewritten by the update path of `save_draft` carries the key
and the present save time in both timestamp cells. -/
theorem saveUpdate_key_row (month year teacher_id : String)
    (es : List RawExpense) (status now : String) :
    ∀ (rows rows' : List DraftSimple.DraftRow),
      DraftSimple.saveUpdate month year teacher_id es status now rows =
        some rows' →
      ∃ dr ∈ rows', dr.teacher_id = teacher_id ∧ dr.month = month ∧
        dr.year = year ∧ dr.status = status ∧ dr.created_date = now ∧
        dr.last_modified = now := by
  intro rows
  induction rows with
  | nil => intro rows' h; simp [DraftSimple.saveUpdate] at h
  | cons r rs ih =>
    intro rows' h
    unfold DraftSimple.saveUpdate at h
    split at h
    · cases h
      exact ⟨_, List.mem_cons_self .., rfl, rfl, rfl, rfl, rfl, rfl⟩
    · cases hrec : DraftSimple.saveUpdate month year teacher_id es status now rs with
      | none => rw [hrec] at h; simp at h
      | some rs' =>
        rw [hrec] at h
        simp at h
        obtain ⟨dr, hmem, hprops⟩ := ih rs' hrec
        exact ⟨dr, h ▸ List.mem_cons_of_mem r hmem, hprops⟩

/-- A successful `save_draft` leaves a row carrying the key, the requested
status, and the save time in both `created_date` and `last_modified`. -/
theorem save_draft_key_row (rows : List DraftSimple.DraftRow)
    (month year teacher_id : String) (es : List RawExpense)
    (status now : String) (rows' : List DraftSimple.DraftRow)
    (h : DraftSimple.save_draft rows month year teacher_id es status now =
      some rows') :
    ∃ dr ∈ rows', dr.teacher_id = teacher_id ∧ dr.month = month ∧
      dr.year = year ∧ dr.status = status ∧ dr.created_date = now ∧
      dr.last_modified = now := by
  unfold DraftSimple.save_draft at h
  split at h
  · cases hupd : DraftSimple.saveUpdate month year teacher_id es status now rows with
    | some rows'' =>
      rw [hupd] at h
      simp at h
      exact h ▸ saveUpdate_key_row month year teacher_id es status now rows rows'' hupd
    | none =>
      rw [hupd] at h
      simp at h
      refine ⟨⟨teacher_id, month, year, Blob.parsed es, status, now, now, ""⟩,
        ?_, rfl, rfl, rfl, rfl, rfl, rfl⟩
      rw [← h]
      exact List.mem_append_right rows (List.mem_cons_self ..)
  · cases h

/-- C3: a fully successful submission of a non-empty draft appends exactly
one ledger row per line item, each `pending` with the submission timestamp
and empty approver, approval-date and comments cells, and stores the draft
with status `submitted`. -/
theorem submit_success_yields_pending_entries
    (ledger : List LedgerRow) (drafts : List DraftSimple.DraftRow)
    (teacher_id month year : String) (es : List RawExpense) (now : String)
    (res : AppSimple.SubmitResult)
    (hne : es ≠ [])
    (hres : AppSimple.submit_expenses_for_approval ledger drafts teacher_id
      month year es now = res)
    (hok : res.ok = true) :
    (∃ rows', res.ledger = ledger ++ rows' ∧
      List.Forall₂
        (fun e r => AppSimple.expenseToLedgerRow teacher_id now e = some r)
        es rows' ∧
      ∀ r ∈ rows', r.status = "pending" ∧ r.submitted_date = now ∧
        r.approved_by = "" ∧ r.approved_date = "" ∧ r.comments = "") ∧
    ∃ dr ∈ res.drafts, dr.teacher_id = teacher_id ∧ dr.month = month ∧
      dr.year = year ∧ dr.status = "submitted" := by
  unfold AppSimple.submit_expenses_for_approval at hres
  rw [if_neg (by simpa using hne)] at hres
  cases hloop : AppSimple.submitLoop teacher_id now ledger es with
  | mk ok' ledger' =>
    rw [hloop] at hres
    cases ok' with
    | false => rw [← hres] at hok; simp at hok
    | true =>
      cases hsave : DraftSimple.save_draft drafts month year teacher_id es
          "submitted" now with
      | none => rw [hsave] at hres; rw [← hres] at hok; simp at hok
      | some drafts' =>
        rw [hsave] at hres
        subst hres
        constructor
        · obtain ⟨rows', hL, hF⟩ := submitLoop_ok teacher_id now es ledger ledger' hloop
          refine ⟨rows', hL, hF, ?_⟩
          intro r hr
          obtain ⟨e, he⟩ := forallTwo_exists_left hF r hr
          exact expenseToLedgerRow_fields teacher_id now e r he
        · obtain ⟨dr, hmem, h1, h2, h3, h4, _, _⟩ :=
            save_draft_key_row drafts month year teacher_id es "submitted" now
              drafts' hsave
          exact ⟨dr, hmem, h1, h2, h3, h4⟩

theorem submit_success_yields_pending_entries_inst :
    ([itemA] ≠ ([] : List RawExpense)) ∧
    (∃ dr ∈ c3res.drafts, dr.teacher_id = "T100" ∧ dr.month = "March" ∧
      dr.year = "2024" ∧ dr.status = "submitted") :=
  ⟨by decide,
   (submit_success_yields_pending_entries [] [] "T100" "March" "2024" [itemA]
      "2024-03-05 09:00:00" c3res (by decide) rfl (by decide)).2⟩

/-- C4 amended: `load_draft` returns the fresh `new` draft, without raising,
whenever the matched row's blob fails to decode or decodes to a list in
which some item is missing a required key; type validity is not checked. -/
theorem load_draft_discards_corrupt_draft
    (rows : List DraftSimple.DraftRow) (month year teacher_id : String)
    (r : DraftSimple.DraftRow)
    (hfind : DraftSimple.findLoadRow rows month year teacher_id = some r)
    (hbad : r.expenses = Blob.malformed ∨
      ∃ es, r.expenses = Blob.parsed es ∧
        ∃ e ∈ es, hasRequiredFields e = false) :
    DraftSimple.load_draft rows month year teacher_id =
      DraftSimple.freshDraft := by
  simp only [DraftSimple.load_draft, hfind]
  rcases hbad with hmal | ⟨es, hes, e, hmem, he⟩
  · rw [hmal]
  · rw [hes]
    show (if es.all hasRequiredFields = true then
        (⟨es, r.status, some r.created_date, some r.last_modified⟩ :
          DraftSimple.LoadedDraft)
      else DraftSimple.freshDraft) = DraftSimple.freshDraft
    rw [if_neg (fun hall => by
      have := List.all_eq_true.mp hall e hmem
      rw [he] at this
      cases this)]

theorem load_draft_discards_corrupt_draft_inst :
    DraftSimple.findLoadRow [c4malRow] "April" "2024" "T100" = some c4malRow ∧
    DraftSimple.load_draft [c4malRow] "April" "2024" "T100" =
      DraftSimple.freshDraft :=
  ⟨by decide,
   load_draft_discards_corrupt_draft [c4malRow] "April" "2024" "T100" c4malRow
     (by decide) (Or.inl rfl)⟩

/-- C5 amended: `save_draft` validates every item before any write and
rejects the whole batch when some item fails `_validate_expense`; in
particular a missing required field fails validation.  (A negative amount
passes, see the counterexample.) -/
theorem save_draft_rejects_invalid_batch :
    (∀ (rows : List DraftSimple.DraftRow) (month year teacher_id : String)
        (es : List RawExpense) (status now : String),
      (∃ e ∈ es, DraftSimple.validate_expense e = false) →
      DraftSimple.save_draft rows month year teacher_id es status now = none) ∧
    (∀ e : RawExpense, hasRequiredFields e = false →
      DraftSimple.validate_expense e = false) := by
  constructor
  · rintro rows month year teacher_id es status now ⟨e, hmem, hbad⟩
    unfold DraftSimple.save_draft
    rw [if_neg (fun hall => by
      have := List.all_eq_true.mp hall e hmem
      rw [hbad] at this
      cases this)]
  · intro e h
    obtain ⟨d, c, v, ds, a, i⟩ := e
    cases d <;> cases c <;> cases v <;> cases ds <;> cases a <;> cases i <;>
      simp_all [hasRequiredFields, DraftSimple.validate_expense]

theorem save_draft_rejects_invalid_batch_inst :
    (∃ e ∈ [itemMissing], DraftSimple.validate_expense e = false) ∧
    DraftSimple.save_draft [] "March" "2024" "T100" [itemMissing] "draft"
      "2024-03-01 10:00:00" = none :=
  ⟨by decide,
   save_draft_rejects_invalid_batch.1 [] "March" "2024" "T100" [itemMissing]
     "draft" "2024-03-01 10:00:00" (by decide)⟩

/-- When no earlier row matches the key, `replaceDraft` rewrites the first
matching row in place, keeping its `draft_id` and `created_date` and
refreshing `last_modified_date`. -/
theorem replaceDraft_first_match (teacher_id month year : String)
    (es : List RawExpense) (now : String) (r : DevApp.DraftRow)
    (post : List DevApp.DraftRow)
    (hr1 : r.teacher_id = teacher_id) (hr2 : r.month = month)
    (hr3 : r.year = year) :
    ∀ pre : List DevApp.DraftRow,
      (∀ p ∈ pre, ¬(p.teacher_id = teacher_id ∧ p.month = month ∧
        p.year = year)) →
      DevApp.replaceDraft teacher_id month year es now (pre ++ r :: post) =
        some (pre ++ ⟨r.draft_id, teacher_id, month, year, Blob.parsed es,
                      "draft", r.created_date, now⟩ :: post) := by
  intro pre
  induction pre with
  | nil =>
    intro _
    show DevApp.replaceDraft teacher_id month year es now (r :: post) = _
    unfold DevApp.replaceDraft
    rw [if_pos ⟨hr1, hr2, hr3⟩]
    rfl
  | cons p ps ih =>
    intro hpre
    show DevApp.replaceDraft teacher_id month year es now
      (p :: (ps ++ r :: post)) = _
    unfold DevApp.replaceDraft
    rw [if_neg (hpre p (List.mem_cons_self ..))]
    rw [ih (fun q hq => hpre q (List.mem_cons_of_mem p hq))]
    rfl

/-- C6 amended: in `dev_app_simple.py`, every successful `save_draft` stores
the present save time in both `created_date` and `last_modified` of the key
row, so an update overwrites the original creation time; in `dev_app.py`,
`save_draft_expenses` preserves the existing row's `created_date` (and
`draft_id`) and refreshes only `last_modified_date`. -/
theorem save_created_date_semantics :
    (∀ (rows : List DraftSimple.DraftRow) (month year teacher_id : String)
        (es : List RawExpense) (status now : String)
        (rows' : List DraftSimple.DraftRow),
      DraftSimple.save_draft rows month year teacher_id es status now =
        some rows' →
      ∃ dr ∈ rows', dr.teacher_id = teacher_id ∧ dr.month = month ∧
        dr.year = year ∧ dr.created_date = now ∧ dr.last_modified = now) ∧
    (∀ (pre : List DevApp.DraftRow) (r : DevApp.DraftRow)
        (post : List DevApp.DraftRow) (teacher_id month year : String)
        (es : List RawExpense) (newUuid now : String),
      (∀ p ∈ pre, ¬(p.teacher_id = teacher_id ∧ p.month = month ∧
        p.year = year)) →
      r.teacher_id = teacher_id → r.month = month → r.year = year →
      DevApp.save_draft_expenses (pre ++ r :: post) teacher_id month year es
        newUuid now =
        some (pre ++ ⟨r.draft_id, teacher_id, month, year, Blob.parsed es,
                      "draft", r.created_date, now⟩ :: post)) := by
  constructor
  · intro rows month year teacher_id es status now rows' h
    obtain ⟨dr, hmem, h1, h2, h3, _, h5, h6⟩ :=
      save_draft_key_row rows month year teacher_id es status now rows' h
    exact ⟨dr, hmem, h1, h2, h3, h5, h6⟩
  · intro pre r post teacher_id month year es newUuid now hpre hr1 hr2 hr3
    unfold DevApp.save_draft_expenses
    rw [replaceDraft_first_match teacher_id month year es now r post hr1 hr2
      hr3 pre hpre]

theorem save_created_date_semantics_inst :
    DraftSimple.save_draft [c6row1] "March" "2024" "T100" [itemA] "draft"
      "2024-03-02 11:00:00" = some c6outRows ∧
    (∃ dr ∈ c6outRows, dr.teacher_id = "T100" ∧ dr.month = "March" ∧
      dr.year = "2024" ∧ dr.created_date = "2024-03-02 11:00:00" ∧
      dr.last_modified = "2024-03-02 11:00:00") :=
  ⟨by decide,
   save_created_date_semantics.1 [c6row1] "March" "2024" "T100" [itemA]
     "draft" "2024-03-02 11:00:00" c6outRows (by decide)⟩

/-- An `authenticate` call with valid formats, credentials that fail
(unknown id, or active record with a wrong pin) and fewer than three
recorded attempts returns `Invalid credentials` and records the attempt. -/
theorem auth_wrong_creds_records (users : List Auth.UserRecord)
    (id pin : String) (s : Auth.AttemptMap) (t : Nat)
    (hid : Auth.validate_teacher_id id = true)
    (hpin : Auth.validate_pin pin = true)
    (hw : Auth.wrongCreds users id pin = true)
    (hfew : s id = none ∨ ∃ l, s id = some l ∧ l.length < 3) :
    Auth.authenticate users s id pin t =
      ((false, "Invalid credentials"), Auth.record_login_attempt t id s, true) := by
  have hT : ¬(true = false) := by decide
  have hrl : Auth.check_rate_limit t id s = (true, s) := by
    rcases hfew with h0 | ⟨l, hl, hlen⟩
    · unfold Auth.check_rate_limit
      rw [h0]
    · simp only [Auth.check_rate_limit, hl]
      rw [if_neg (by omega)]
  unfold Auth.authenticate
  rw [hid, hpin, if_neg hT, if_neg hT, hrl]
  cases hu : Auth.get_user_data users id with
  | none => simp [hu]
  | some u =>
    unfold Auth.wrongCreds at hw
    rw [hu] at hw
    simp only [Bool.and_eq_true, bne_iff_ne] at hw
    obtain ⟨ha, hp⟩ := hw
    simp [hu, ha, hp]

/-- C7: once three failing calls that record an attempt (unknown id or wrong
pin; see `wrongCreds`) have happened, every further call within 300 seconds
of the oldest recorded failure is refused with the lockout message, without
reading the user store and without changing the attempts state; once the
interval has elapsed from the oldest failure, the next call reaches the
store again.  (No call can succeed while locked out, so a success resetting
the counter can only happen before the third failure.) -/
theorem lockout_after_three_recorded_failures
    (users : List Auth.UserRecord) (id pin : String)
    (s0 s1 s2 s3 : Auth.AttemptMap) (t1 t2 t3 t4 t5 : Nat)
    (hid : Auth.validate_teacher_id id = true)
    (hpin : Auth.validate_pin pin = true)
    (hw : Auth.wrongCreds users id pin = true)
    (h0 : s0 id = none)
    (hs1 : s1 = (Auth.authenticate users s0 id pin t1).2.1)
    (hs2 : s2 = (Auth.authenticate users s1 id pin t2).2.1)
    (hs3 : s3 = (Auth.authenticate users s2 id pin t3).2.1)
    (h41 : t4 - t1 < 300) (h51 : t5 - t1 < 300) :
    Auth.authenticate users s3 id pin t4 =
      ((false, Auth.lockedMsg (300 - (t4 - t1))), s3, false) ∧
    Auth.authenticate users s3 id pin t5 =
      ((false, Auth.lockedMsg (300 - (t5 - t1))), s3, false) ∧
    ∀ t6, 300 ≤ t6 - t1 → (Auth.authenticate users s3 id pin t6).2.2 = true := by
  have hT : ¬(true = false) := by decide
  have e1 := auth_wrong_creds_records users id pin s0 t1 hid hpin hw (Or.inl h0)
  have h1id : s1 id = some [t1] := by
    rw [hs1, e1]
    simp [Auth.record_login_attempt, Auth.setAtt, h0]
  have e2 := auth_wrong_creds_records users id pin s1 t2 hid hpin hw
    (Or.inr ⟨[t1], h1id, by simp⟩)
  have h2id : s2 id = some [t1, t2] := by
    rw [hs2, e2]
    simp [Auth.record_login_attempt, Auth.setAtt, h1id]
  have e3 := auth_wrong_creds_records users id pin s2 t3 hid hpin hw
    (Or.inr ⟨[t1, t2], h2id, by simp⟩)
  have h3id : s3 id = some [t1, t2, t3] := by
    rw [hs3, e3]
    simp [Auth.record_login_attempt, Auth.setAtt, h2id]
  have hlock : ∀ t, t - t1 < 300 →
      Auth.authenticate users s3 id pin t =
        ((false, Auth.lockedMsg (300 - (t - t1))), s3, false) := by
    intro t ht
    have hrl : Auth.check_rate_limit t id s3 = (false, s3) := by
      simp [Auth.check_rate_limit, h3id, ht]
    unfold Auth.authenticate
    rw [hid, hpin, if_neg hT, if_neg hT, hrl]
    simp [h3id]
  refine ⟨hlock t4 h41, hlock t5 h51, ?_⟩
  intro t6 h6
  have hrl : Auth.check_rate_limit t6 id s3 = (true, Auth.setAtt s3 id []) := by
    simp [Auth.check_rate_limit, h3id]
    omega
  unfold Auth.authenticate
  rw [hid, hpin, if_neg hT, if_neg hT, hrl]
  cases hu : Auth.get_user_data users id with
  | none => simp [hu]
  | some u =>
    by_cases hia : u.is_active = false
    · simp [hu, hia]
    · by_cases hp : pin ≠ u.pin
      · simp [hu, hia, hp]
      · simp [hu, hia, hp]

theorem lockout_after_three_recorded_failures_inst :
    Auth.wrongCreds c7users "T100" "1234" = true ∧
    Auth.authenticate c7users c7s3 "T100" "1234" 30 =
      ((false, Auth.lockedMsg 270), c7s3, false) :=
  ⟨by decide,
   (lockout_after_three_recorded_failures c7users "T100" "1234"
      Auth.emptyAttempts c7s1 c7s2 c7s3 0 10 20 30 40 (by decide) (by decide)
      (by decide) rfl rfl rfl rfl (by decide) (by decide)).1⟩

/-- An `authenticate` call that fails on an inactive account returns the
inactive message and leaves the attempts state exactly as it was, provided
the id has no recorded attempts. -/
theorem inactive_step (users : List Auth.UserRecord) (id pin : String)
    (u : Auth.UserData) (s : Auth.AttemptMap) (t : Nat)
    (hid : Auth.validate_teacher_id id = true)
    (hpin : Auth.validate_pin pin = true)
    (hu : Auth.get_user_data users id = some u)
    (hia : u.is_active = false)
    (hs : s id = none) :
    Auth.authenticate users s id pin t =
      ((false, "Account is inactive"), s, true) := by
  have hT : ¬(true = false) := by decide
  have hrl : Auth.check_rate_limit t id s = (true, s) := by
    unfold Auth.check_rate_limit
    rw [hs]
  unfold Auth.authenticate
  rw [hid, hpin, if_neg hT, if_neg hT, hrl]
  simp [hu, hia]

/-- C9 amended: a call failing on an inactive account never records a failed
attempt, and starting from a state with no recorded attempts for the id,
every call of a sequence of inactive-account `authenticate` calls returns
the inactive failure — never a rate-limit refusal — and the id still has no
recorded attempts afterwards.  (When stale attempts pre-exist, the
rate-limit check can clear them, so the state is not unchanged in general;
see the counterexample.) -/
theorem inactive_failures_never_rate_limited
    (users : List Auth.UserRecord) (id pin : String) (u : Auth.UserData)
    (hid : Auth.validate_teacher_id id = true)
    (hpin : Auth.validate_pin pin = true)
    (hu : Auth.get_user_data users id = some u)
    (hia : u.is_active = false) :
    ∀ (times : List Nat) (s : Auth.AttemptMap), s id = none →
      (Auth.authRun users id pin s times).1 =
        times.map (fun _ => (false, "Account is inactive")) ∧
      (Auth.authRun users id pin s times).2 id = none := by
  intro times
  induction times with
  | nil => intro s hs; exact ⟨rfl, hs⟩
  | cons t ts ih =>
    intro s hs
    have hstep := inactive_step users id pin u s t hid hpin hu hia hs
    obtain ⟨ih1, ih2⟩ := ih s hs
    refine ⟨?_, ?_⟩
    · simp [Auth.authRun, hstep, ih1]
    · simp [Auth.authRun, hstep, ih2]

theorem inactive_failures_never_rate_limited_inst :
    Auth.get_user_data inactiveUsers "T100" = some inactiveUser ∧
    ((Auth.authRun inactiveUsers "T100" "1234" Auth.emptyAttempts
        [0, 1, 2, 3, 4]).1 =
      [0, 1, 2, 3, 4].map (fun _ => (false, "Account is inactive")) ∧
    (Auth.authRun inactiveUsers "T100" "1234" Auth.emptyAttempts
        [0, 1, 2, 3, 4]).2 "T100" = none) :=
  ⟨by decide,
   inactive_failures_never_rate_limited inactiveUsers "T100" "1234"
     inactiveUser (by decide) (by decide) (by decide) (by decide)
     [0, 1, 2, 3, 4] Auth.emptyAttempts rfl⟩

/-- C10: the admin approval path of `app.py` calls the row-number based
`update_expense_status` with `int(id) + 1`, which rewrites the decision
cells of exactly sheet row `k + 1` (list index `k`) and leaves every other
row unchanged; hence the entry with id `k` is the one modified precisely
when it is stored at sheet row `k + 1`, and under any other layout a
different row's cells are written. -/
theorem admin_decision_targets_row_id_plus_one
    (values : List LedgerRow) (k : Nat) (r : LedgerRow)
    (decision comments approver now : String)
    (hk : values[k]? = some r) :
    AppMain.adminDecide values k decision comments approver now =
      values.set k (AppMain.applyDecision r decision comments approver now) ∧
    ∀ j, j ≠ k →
      (AppMain.adminDecide values k decision comments approver now)[j]? =
        values[j]? := by
  have hmain : AppMain.adminDecide values k decision comments approver now =
      values.set k (AppMain.applyDecision r decision comments approver now) := by
    unfold AppMain.adminDecide AppMain.update_expense_status
    simp [Nat.add_sub_cancel, hk]
  refine ⟨hmain, fun j hj => ?_⟩
  rw [hmain]
  exact List.getElem?_set_ne (Ne.symm hj)

theorem admin_decision_targets_row_id_plus_one_inst :
    c10values[1]? = some c10rowA ∧
    AppMain.adminDecide c10values 1 "approved" "ok" "A1" "2024-03-07 11:00:00" =
      c10values.set 1
        (AppMain.applyDecision c10rowA "approved" "ok" "A1"
          "2024-03-07 11:00:00") :=
  ⟨by decide,
   (admin_decision_targets_row_id_plus_one c10values 1 c10rowA "approved"
      "ok" "A1" "2024-03-07 11:00:00" (by decide)).1⟩
